import Mathlib

/-!
Verification of the relationship entity-resolution and memory-consolidation
core of the mentor360 backend.  Every definition below is a shallow embedding
of the corresponding JavaScript function of the repository (the core lives in
one server file; line references are to that file).  Strings are modelled by
Lean `String`, the JS `null`/`undefined` string fields by `""` (the code only
ever reads them through `x || ''` or `x || []`, so the two are observationally
equal), timestamps by `Nat`, and the relational store by an in-memory list of
records together with a fresh-id counter.
-/

/-- Model of the per-character effect of the JS pipeline
`s.normalize('NFD').replace(/[̀-ͯ]/g, '')` on a precomposed
Latin-1 letter: Unicode NFD decomposes it into its base letter followed by
combining marks, and the marks (U+0300..U+036F, which includes the cedilla
mark produced by Ç/ç) are then deleted.  Characters without such a
decomposition are left unchanged. -/
def stripDiacritic (c : Char) : Char :=
  if c ∈ ['À', 'Á', 'Â', 'Ã', 'Ä', 'Å'] then 'A'
  else if c ∈ ['à', 'á', 'â', 'ã', 'ä', 'å'] then 'a'
  else if c = 'Ç' then 'C'
  else if c = 'ç' then 'c'
  else if c ∈ ['È', 'É', 'Ê', 'Ë'] then 'E'
  else if c ∈ ['è', 'é', 'ê', 'ë'] then 'e'
  else if c ∈ ['Ì', 'Í', 'Î', 'Ï'] then 'I'
  else if c ∈ ['ì', 'í', 'î', 'ï'] then 'i'
  else if c = 'Ñ' then 'N'
  else if c = 'ñ' then 'n'
  else if c ∈ ['Ò', 'Ó', 'Ô', 'Õ', 'Ö'] then 'O'
  else if c ∈ ['ò', 'ó', 'ô', 'õ', 'ö'] then 'o'
  else if c ∈ ['Ù', 'Ú', 'Û', 'Ü'] then 'U'
  else if c ∈ ['ù', 'ú', 'û', 'ü'] then 'u'
  else if c = 'Ý' then 'Y'
  else if c ∈ ['ý', 'ÿ'] then 'y'
  else c

/-- Combining diacritical marks U+0300..U+036F, deleted by the normalizer also
when they occur literally (already decomposed) in the input. -/
def isCombiningMark (c : Char) : Bool :=
  0x300 ≤ c.toNat && c.toNat ≤ 0x36F

/-- Whitespace trimming at both ends, the effect of JS `String.prototype.trim`
(implemented on the character list so that it reduces inside the kernel). -/
def trimChars (cs : List Char) : List Char :=
  (((cs.dropWhile Char.isWhitespace).reverse).dropWhile Char.isWhitespace).reverse

/-- Text Normalizer, `normalize` in the source (line 506; renamed here because
Mathlib already owns the bare name):
`const normalize = (s = '') => s.normalize('NFD').replace(/[̀-ͯ]/g, '').toLowerCase().trim();`.
Lean `Char.toLower` lower-cases ASCII letters; after diacritic stripping every
letter of the lexicons and test inputs is ASCII, which matches JS
`toLowerCase` on this fragment. -/
def normalizeTexto (s : String) : String :=
  String.mk (trimChars (((s.data.map stripDiacritic).filter
      (fun c => !isCombiningMark c)).map Char.toLower))

/-- Alias-set merge (source lines 509-514):
`const uniqMerge = (a = [], b = []) => { const seen = new Set((a||[]).map(x => normalize(x))); const out = [...(a||[])]; (b||[]).forEach(x => { if (!seen.has(normalize(x))) out.push(x); }); return out; };`
Note that `seen` is built from `a` only and is never extended while `b` is
scanned, which the embedding reproduces. -/
def uniqMerge (a b : List String) : List String :=
  a ++ b.filter (fun x => !((a.map normalizeTexto).contains (normalizeTexto x)))

/-- PersonMention as produced by the extractor (fields `nome_real`,
`apelidos`, `tipo_vinculo`, `observacao`); `observacao` is carried but never
read by the consolidation core. -/
structure Pessoa where
  nome_real : String
  apelidos : List String
  tipo_vinculo : String
  observacao : String
deriving DecidableEq

/-- One entry of `historico_mencoes`: `{ data: agoraISO, trecho: ... }`. -/
structure HistItem where
  data : Nat
  trecho : String
deriving DecidableEq

/-- RelationshipRecord, one row of the `vinculos_usuario` table (all rows are
already filtered to one `user_id`, which the claims quantify over
implicitly). -/
structure Vinculo where
  id : Nat
  nome_real : String
  tipo_vinculo : String
  apelidos_descricoes : List String
  marcador_emocional : List String
  contextos_relevantes : List String
  frequencia_mencao : Nat
  ultima_mencao : Nat
  historico_mencoes : List HistItem
  perfil_compacto : String
deriving DecidableEq

/-- Relationship-Category Classifier (source lines 599-606).  The JS binds
`t = normalize(tipo)` once; the binding is inlined here. -/
def familyGroup (tipo : String) : String :=
  if ["esposa", "esposo", "conjuge", "cônjuge", "marido", "namorada",
      "namorado", "parceira", "parceiro"].contains (normalizeTexto tipo) then "conjugal"
  else if ["irma", "irmão", "irmao", "irmã"].contains (normalizeTexto tipo) then "irmao"
  else if ["mae", "mãe", "pai", "sogra", "sogro"].contains (normalizeTexto tipo) then "parental"
  else if ["filho", "filha"].contains (normalizeTexto tipo) then "filhos"
  else "outros"

/-- Conflict table (source lines 608-613).  The JS encodes the ordered pair
of groups as the string `ga + "|" + gb` and tests membership in a fixed set;
the embedding tests the pair directly, which is equivalent because no group
name contains a bar. -/
def groupsConflict (a b : String) : Bool :=
  if familyGroup a = familyGroup b then false
  else [("conjugal", "irmao"), ("irmao", "conjugal"),
        ("conjugal", "parental"), ("parental", "conjugal")].contains
    (familyGroup a, familyGroup b)

/-- Criterion 1 of the resolver: both normalized real names non-empty and
equal (`if (nomeN && vNome && nomeN === vNome) score += 6`). -/
def temNomeExato (p : Pessoa) (v : Vinculo) : Bool :=
  let nomeN := normalizeTexto p.nome_real
  let vNome := normalizeTexto v.nome_real
  !(nomeN == "") && !(vNome == "") && nomeN == vNome

/-- Criterion 2: some normalized mention alias containing a space equals some
normalized candidate alias
(`aliasesN.some(a => a.includes(' ') && vAliases.includes(a))`). -/
def temAliasComposto (p : Pessoa) (v : Vinculo) : Bool :=
  let vAliases := v.apelidos_descricoes.map normalizeTexto
  (p.apelidos.map normalizeTexto).any (fun a => a.data.contains ' ' && vAliases.contains a)

/-- Criterion 3 trigger: some single-token normalized mention alias equals
some normalized candidate alias
(`aliasesN.some(a => !a.includes(' ') && vAliases.includes(a))`). -/
def temAliasSimples (p : Pessoa) (v : Vinculo) : Bool :=
  let vAliases := v.apelidos_descricoes.map normalizeTexto
  (p.apelidos.map normalizeTexto).any (fun a => !(a.data.contains ' ') && vAliases.contains a)

/-- Guard of the Jaccard fallback: both normalized names non-empty. -/
def temNomesNaoVazios (p : Pessoa) (v : Vinculo) : Bool :=
  !(normalizeTexto p.nome_real == "") && !(normalizeTexto v.nome_real == "")

/-- Accumulator-based splitting of a character list into its maximal runs of
non-whitespace characters. -/
def palavrasAux : List Char → List Char → List String
  | [], acc => if acc.isEmpty then [] else [String.mk acc.reverse]
  | c :: cs, acc =>
    if c.isWhitespace then
      if acc.isEmpty then palavrasAux cs []
      else String.mk acc.reverse :: palavrasAux cs []
    else palavrasAux cs (c :: acc)

/-- Whitespace tokenization `nomeN.split(/\s+/)` of an already trimmed
string (the resolver always applies it to normalizer output, which is
trimmed, so JS produces exactly the maximal non-whitespace runs). -/
def tokensDe (s : String) : List String :=
  palavrasAux s.data []

/-- Jaccard fallback test (source lines 636-641):
`const a = new Set(nomeN.split(/\s+/)), b = new Set(vNome.split(/\s+/)); const inter = [...a].filter(x => b.has(x)).length; const jacc = inter / Math.max(1, a.size + b.size - inter); if (jacc >= 0.7) ...`.
The floating comparison `inter/denom >= 0.7` is decided exactly by the
rational comparison `10*inter >= 7*denom` (denom > 0, and for the tiny
integer token counts involved the nearest double to the quotient never
crosses 0.7). -/
def jaccardAceita (p : Pessoa) (v : Vinculo) : Bool :=
  let a := (tokensDe (normalizeTexto p.nome_real)).dedup
  let b := (tokensDe (normalizeTexto v.nome_real)).dedup
  let inter := (a.filter (fun x => b.contains x)).length
  let denom := Nat.max 1 (a.length + b.length - inter)
  Nat.ble (7 * denom) (10 * inter)

/-- Candidate score (source lines 627-641), accumulated in the same order as
the JS loop body; in particular the +4 Jaccard fallback fires only when the
running score is still 0. -/
def scoreVinculo (p : Pessoa) (v : Vinculo) : Nat :=
  let s1 : Nat := if temNomeExato p v then 6 else 0
  let s2 : Nat := s1 + (if temAliasComposto p v then 5 else 0)
  let s3 : Nat := s2 + (if temAliasSimples p v &&
      !(groupsConflict v.tipo_vinculo p.tipo_vinculo) then 2 else 0)
  s3 + (if temNomesNaoVazios p v && (s3 == 0) && jaccardAceita p v then 4 else 0)

/-- Strong evidence (source line 643):
`const strong = (nomeN && vNome && nomeN === vNome) || aliasesN.some(a => a.includes(' ') && vAliases.includes(a));`. -/
def strongEvidence (p : Pessoa) (v : Vinculo) : Bool :=
  temNomeExato p v || temAliasComposto p v

/-- Conflict gate (source lines 642-644): the candidate is skipped
(`continue`) when the groups conflict and no strong evidence exists. -/
def skipVinculo (p : Pessoa) (v : Vinculo) : Bool :=
  groupsConflict v.tipo_vinculo p.tipo_vinculo && !(strongEvidence p v)

/-- Selection loop of the resolver (source lines 624-647): running best
candidate and best score, initialised to `(null, -1)`, updated on strict
improvement (`if (score > bestScore)`), skipped candidates never update. -/
def buscarMelhor (p : Pessoa) : List Vinculo → Option Vinculo × Int → Option Vinculo × Int
  | [], acc => acc
  | v :: rest, acc =>
    if skipVinculo p v then buscarMelhor p rest acc
    else if acc.2 < (scoreVinculo p v : Int) then
      buscarMelhor p rest (some v, (scoreVinculo p v : Int))
    else buscarMelhor p rest acc

/-- Match Resolver `encontrarMatchVinculo(existing, pessoa)` (source lines
621-649): best non-skipped candidate, accepted only when its score reaches 5
(`return bestScore >= 5 ? best : null`). -/
def encontrarMatchVinculo (existing : List Vinculo) (p : Pessoa) : Option Vinculo :=
  let acc := buscarMelhor p existing (none, -1)
  if 5 ≤ acc.2 then acc.1 else none

/-- Spec-side restatement of the scoring formula, written as the claim states
it: four independent criteria summed, the Jaccard fallback firing only when
no earlier criterion has scored.  Compared against `scoreVinculo` in C1. -/
def scoreSpec (p : Pessoa) (v : Vinculo) : Nat :=
  (if temNomeExato p v then 6 else 0)
  + (if temAliasComposto p v then 5 else 0)
  + (if temAliasSimples p v &&
      !(groupsConflict v.tipo_vinculo p.tipo_vinculo) then 2 else 0)
  + (if !(temNomeExato p v) && !(temAliasComposto p v)
        && !(temAliasSimples p v && !(groupsConflict v.tipo_vinculo p.tipo_vinculo))
        && temNomesNaoVazios p v && jaccardAceita p v then 4 else 0)

/-- Letter class `[A-Za-zÀ-ÖØ-öø-ÿ]` of the kinship regex (source line 675). -/
def letraRegex (c : Char) : Bool :=
  ('A' ≤ c && c ≤ 'Z') || ('a' ≤ c && c ≤ 'z')
  || (0xC0 ≤ c.toNat && c.toNat ≤ 0xD6)
  || (0xD8 ≤ c.toNat && c.toNat ≤ 0xF6)
  || (0xF8 ≤ c.toNat && c.toNat ≤ 0xFF)

/-- Name-capture class `[A-Za-zÀ-ÖØ-öø-ÿ\s'.-]` of the kinship regex:
letters, whitespace, apostrophe (code 39), dot and hyphen. -/
def classeNome (c : Char) : Bool :=
  letraRegex c || c.isWhitespace || c.toNat == 39 || c == '.' || c == '-'

/-- Greedy bounded repetition: take at most `n` leading characters
satisfying `p` (the `{1,60}` quantifier with nothing after it never needs to
backtrack, so the maximal munch is the regex semantics). -/
def tomaAte : Nat → (Char → Bool) → List Char → List Char
  | 0, _, _ => []
  | _ + 1, _, [] => []
  | n + 1, p, c :: cs => if p c then c :: tomaAte n p cs else []

/-- Alternation `(m[aã]e|pai)` under the `i` flag, attempted at the current
position; returns the matched characters (as written in the text, for
capture group 1) and the rest. -/
def casaPalavraChave : List Char → Option (String × List Char)
  | c1 :: c2 :: c3 :: rest =>
    if (c1 == 'm' || c1 == 'M') && (c2 == 'a' || c2 == 'A' || c2 == 'ã' || c2 == 'Ã')
        && (c3 == 'e' || c3 == 'E') then
      some (String.mk [c1, c2, c3], rest)
    else if (c1 == 'p' || c1 == 'P') && (c2 == 'a' || c2 == 'A')
        && (c3 == 'i' || c3 == 'I') then
      some (String.mk [c1, c2, c3], rest)
    else none
  | _ => none

/-- Greedy `\s+`: requires at least one whitespace character and consumes the
maximal run (what follows in the pattern is never whitespace-initial, so no
backtracking is possible). -/
def casaEspacos : List Char → Option (List Char)
  | [] => none
  | c :: cs => if c.isWhitespace then some (cs.dropWhile Char.isWhitespace) else none

/-- The preposition `da?` under the `i` flag: a `d` optionally followed by an
`a`.  Consuming the optional `a` greedily is exact: if `\s+` fails after the
`a`, it also fails at the `a` itself (an `a` is not whitespace). -/
def casaDa : List Char → Option (List Char)
  | [] => none
  | c :: cs =>
    if c == 'd' || c == 'D' then
      some (match cs with
            | a :: r2 => if a == 'a' || a == 'A' then r2 else cs
            | [] => cs)
    else none

/-- Anchored attempt of the whole regex
`(m[aã]e|pai)\s+da?\s+([A-Za-zÀ-ÖØ-öø-ÿ][A-Za-zÀ-ÖØ-öø-ÿ\s'.-]{1,60})` at the
head of the character list; on success returns (group 1, group 2, rest of
the text after the match). -/
def casaRegexAqui (cs : List Char) : Option (String × String × List Char) := do
  let (kw, r1) ← casaPalavraChave cs
  let r2 ← casaEspacos r1
  let r3 ← casaDa r2
  let r4 ← casaEspacos r3
  match r4 with
  | [] => none
  | c :: resto =>
    if letraRegex c then
      let cauda := tomaAte 60 classeNome resto
      if cauda.isEmpty then none
      else some (kw, String.mk (c :: cauda), resto.drop cauda.length)
    else none

/-- Scan loop of `re.exec` with the `g` flag: find the leftmost match from
the current position, emit its two capture groups, continue after the match
end.  `fuel` is the remaining text length (every match consumes at least one
character, so the fuel never runs out before the text does). -/
def buscaCasamentos : Nat → List Char → List (String × String)
  | 0, _ => []
  | _ + 1, [] => []
  | fuel + 1, c :: cs =>
    match casaRegexAqui (c :: cs) with
    | some (kw, cap, resto) => (kw, cap) :: buscaCasamentos fuel resto
    | none => buscaCasamentos fuel cs

/-- All matches of the kinship regex over a text, leftmost first. -/
def casamentosRegex (texto : String) : List (String × String) :=
  buscaCasamentos texto.data.length texto.data

/-- Conjugal filter of `getConjuges` (source lines 651-660): records whose
normalized `tipo_vinculo` is in the conjugal lexicon. -/
def getConjuges (store : List Vinculo) : List Vinculo :=
  store.filter (fun v =>
    ["esposa", "esposo", "conjuge", "cônjuge", "marido", "namorada",
     "namorado", "parceira", "parceiro"].contains (normalizeTexto v.tipo_vinculo))

/-- Spouse-name test `matchNomeOuAlias` (source lines 662-668). -/
def matchNomeOuAlias (v : Vinculo) (alvo : String) : Bool :=
  let t := normalizeTexto alvo
  if t == "" then false
  else (normalizeTexto v.nome_real == t)
    || (v.apelidos_descricoes.map normalizeTexto).contains t

/-- The parental-type test applied to each mention inside the remap loop:
`t === 'mae' || t === 'mãe' || t === 'pai'` on the normalized type (the
middle disjunct is unreachable after normalization but kept verbatim). -/
def isTipoParental (t : String) : Bool :=
  t == "mae" || t == "mãe" || t == "pai"

/-- First-character test `tipo.startsWith('p')` on the normalized keyword. -/
def comecaComP (s : String) : Bool :=
  match s.data with
  | c :: _ => c == 'p'
  | [] => false

/-- Body of the `while ((m = re.exec(texto)) !== null)` loop (source lines
677-688): normalize group 1, trim group 2, and when the captured name matches
a spouse remap every parental mention of the batch to the in-law type chosen
by the keyword. -/
def aplicaCasamento (conj : List Vinculo) (out : List Pessoa)
    (m : String × String) : List Pessoa :=
  if conj.any (fun v => matchNomeOuAlias v (String.mk (trimChars m.2.data))) then
    out.map (fun p =>
      if isTipoParental (normalizeTexto p.tipo_vinculo) then
        { p with tipo_vinculo :=
            if comecaComP (normalizeTexto m.1) then "sogro" else "sogra" }
      else p)
  else out

/-- Kinship Relativizer `inferirParentescoRelativo` (source lines 670-690):
fetch the spouse records, pass the batch through unchanged when there are
none, otherwise run the regex loop over the message text. -/
def inferirParentescoRelativo (texto : String) (store : List Vinculo)
    (pessoas : List Pessoa) : List Pessoa :=
  if (getConjuges store).isEmpty then pessoas
  else (casamentosRegex texto).foldl (aplicaCasamento (getConjuges store)) pessoas

/-- Truncation `s.slice(0, 240)` applied to the stored excerpt. -/
def trunc240 (s : String) : String :=
  String.mk (s.data.take 240)

/-- Retention `xs.slice(-12)` of the most recent 12 history entries: the last
`n` elements of a list (all of it when shorter). -/
def sliceLast (n : Nat) (l : List HistItem) : List HistItem :=
  ((l.reverse.take n).reverse)

/-- The in-place update computed by the match branch of `upsertVinculo`
(source lines 698-719): alias union, name preference
`(!nomeAtual && nomeNovo) || (nomeNovo && nomeNovo.length > nomeAtual.length) ? nomeNovo : nomeAtual`
followed by the `nomeFinal || match.nome_real` coalescing of the payload,
type preference `pessoa.tipo_vinculo || match.tipo_vinculo`, counters, and
bounded history append `[...historico, novoHistoricoItem].slice(-12)`. -/
def mergeVinculo (m : Vinculo) (p : Pessoa) (agora : Nat) (trecho : String) : Vinculo :=
  let novoItem : HistItem := { data := agora, trecho := trunc240 trecho }
  let nomeAtual := m.nome_real
  let nomeNovo := p.nome_real
  let nomeFinal :=
    if (nomeAtual = "" ∧ nomeNovo ≠ "") ∨ (nomeNovo ≠ "" ∧ nomeAtual.length < nomeNovo.length)
    then nomeNovo else nomeAtual
  { m with
    nome_real := if nomeFinal ≠ "" then nomeFinal else m.nome_real,
    tipo_vinculo := if p.tipo_vinculo ≠ "" then p.tipo_vinculo else m.tipo_vinculo,
    apelidos_descricoes := uniqMerge m.apelidos_descricoes p.apelidos,
    frequencia_mencao := m.frequencia_mencao + 1,
    ultima_mencao := agora,
    historico_mencoes := sliceLast 12 (m.historico_mencoes ++ [novoItem]) }

/-- The fresh row built by the insert branch of `upsertVinculo` (source lines
724-735). -/
def novoVinculo (id : Nat) (p : Pessoa) (agora : Nat) (trecho : String) : Vinculo :=
  { id := id,
    nome_real := p.nome_real,
    tipo_vinculo := if p.tipo_vinculo ≠ "" then p.tipo_vinculo else "desconhecido",
    apelidos_descricoes := p.apelidos,
    marcador_emocional := [],
    contextos_relevantes := [],
    frequencia_mencao := 1,
    ultima_mencao := agora,
    historico_mencoes := [{ data := agora, trecho := trunc240 trecho }],
    perfil_compacto := "" }

/-- The relational store restricted to one user: the user's record rows plus
the id the next insert will receive. -/
structure Store where
  vinculos : List Vinculo
  nextId : Nat
deriving DecidableEq

/-- Record Consolidator `upsertVinculo` (source lines 693-740) with explicit
store-failure switches.  `rf` models `fetchVinculosExistentes` returning its
error fallback `[]` (source lines 615-619); `wf` models the Supabase
update/insert call failing.  A failed update is logged and the function still
returns `match.id`; a failed insert is logged and returns `null`. -/
def upsertVinculoSt (rf wf : Bool) (st : Store) (p : Pessoa) (agora : Nat)
    (trecho : String) : Store × Option Nat :=
  let existentes := if rf then [] else st.vinculos
  match encontrarMatchVinculo existentes p with
  | some m =>
    if wf then (st, some m.id)
    else ({ st with vinculos := (st.vinculos.map
              (fun v => if v.id == m.id then mergeVinculo m p agora trecho else v)) },
          some m.id)
  | none =>
    if wf then (st, none)
    else ({ st with
            vinculos := st.vinculos ++ [novoVinculo st.nextId p agora trecho],
            nextId := st.nextId + 1 },
          some st.nextId)

/-- Profile Compactor adapter `atualizarPerfilCompacto` (source lines
742-760) over the store model: re-read the record, summarize it through the
external collaborator `resumo`, and write `perfil_compacto` back only when
the summary is non-empty; `pf` models any failure on this path (read error,
collaborator failure, write error), which leaves the store unchanged. -/
def atualizarPerfilCompactoSt (pf : Bool) (resumo : Vinculo → String)
    (st : Store) (idOpt : Option Nat) : Store :=
  match idOpt with
  | none => st
  | some i =>
    if pf then st
    else
      match st.vinculos.find? (fun v => v.id == i) with
      | none => st
      | some v =>
        let r := resumo v
        if r == "" then st
        else { st with vinculos := (st.vinculos.map
            (fun w => if w.id == i then { w with perfil_compacto := r } else w)) }

/-- Per-mention failure switches for one batch: `readFail i`, `writeFail i`
and `perfilFail i` decide whether the store read, the store write and the
profile-compaction path of the `i`-th mention fail. -/
structure FailurePlan where
  readFail : Nat → Bool
  writeFail : Nat → Bool
  perfilFail : Nat → Bool

/-- The failure-free plan. -/
def noFailures : FailurePlan :=
  { readFail := fun _ => false, writeFail := fun _ => false, perfilFail := fun _ => false }

/-- The plan on which every store write and every profile compaction fails. -/
def allWritesFail : FailurePlan :=
  { readFail := fun _ => false, writeFail := fun _ => true, perfilFail := fun _ => true }

/-- Names contributed to `nomesOuApelidosCitados` by one mention (source
lines 770-772): the truthy `nome_real` followed by the `filter(Boolean)`
apelidos. -/
def nomesDePessoa (p : Pessoa) : List String :=
  (if p.nome_real ≠ "" then [p.nome_real] else []) ++ p.apelidos.filter (fun a => a ≠ "")

/-- Concatenation of the names contributed by a whole batch. -/
def nomesDe (ps : List Pessoa) : List String :=
  ps.flatMap nomesDePessoa

/-- One iteration of the `for (const p of pessoasAjustadas)` loop of
`processarVinculosUsuario` (source lines 769-775) as a store transformer:
sanitize the alias list (`p.apelidos = ... .filter(Boolean)`), upsert, then
best-effort profile compaction.  `i` is the index of the current mention in
the batch, used to look up its failure switches. -/
def passoMencao (fp : FailurePlan) (resumo : Vinculo → String) (agora : Nat)
    (texto : String) (i : Nat) (st : Store) (p : Pessoa) : Store :=
  atualizarPerfilCompactoSt (fp.perfilFail i) resumo
    (upsertVinculoSt (fp.readFail i) (fp.writeFail i) st
      { p with apelidos := p.apelidos.filter (fun a => a ≠ "") } agora texto).1
    (upsertVinculoSt (fp.readFail i) (fp.writeFail i) st
      { p with apelidos := p.apelidos.filter (fun a => a ≠ "") } agora texto).2

/-- The recursion over the batch: this mention's names, followed by the rest
of the batch processed against the store left by this mention's step. -/
def processarLoop (fp : FailurePlan) (resumo : Vinculo → String) (agora : Nat)
    (texto : String) : List Pessoa → Nat → Store → List String × Store
  | [], _, st => ([], st)
  | p :: ps, i, st =>
    (nomesDePessoa { p with apelidos := p.apelidos.filter (fun a => a ≠ "") }
       ++ (processarLoop fp resumo agora texto ps (i + 1)
            (passoMencao fp resumo agora texto i st p)).1,
     (processarLoop fp resumo agora texto ps (i + 1)
       (passoMencao fp resumo agora texto i st p)).2)

/-- Entry point `processarVinculosUsuario` (source lines 762-777).
`memoryWriteEnabled` is `FLAGS.MEMORY_WRITE_ENABLED`; `extrair` is the
external mention-extraction collaborator (the OpenAI call), passed as an
oracle; `resumo` is the summarization collaborator.  Returns the
`filter(Boolean)` of the touched names together with the final store. -/
def processarVinculosUsuario (memoryWriteEnabled : Bool) (fp : FailurePlan)
    (extrair : String → List Pessoa) (resumo : Vinculo → String)
    (texto : String) (st : Store) (agora : Nat) : List String × Store :=
  if !memoryWriteEnabled then ([], st)
  else
    ((processarLoop fp resumo agora texto
        (inferirParentescoRelativo texto st.vinculos (extrair texto)) 0 st).1.filter
          (fun n => n ≠ ""),
     (processarLoop fp resumo agora texto
       (inferirParentescoRelativo texto st.vinculos (extrair texto)) 0 st).2)

/-- Mentioned-now test of the Context Selector (source lines 788-792). -/
def citadoPor (nomesN : List String) (v : Vinculo) : Bool :=
  nomesN.contains (normalizeTexto v.nome_real)
  || v.apelidos_descricoes.any (fun a => nomesN.contains (normalizeTexto a))

/-- The comparator `(b.frequencia_mencao||0)-(a.frequencia_mencao||0)`, tie
broken by `new Date(b.ultima_mencao||0)-new Date(a.ultima_mencao||0)`, read
as a boolean `a before-or-equal b` relation: mention count descending, then
last-mention timestamp descending. -/
def ordemOutros (a b : Vinculo) : Bool :=
  decide (b.frequencia_mencao < a.frequencia_mencao)
  || (decide (a.frequencia_mencao = b.frequencia_mencao)
      && decide (b.ultima_mencao ≤ a.ultima_mencao))

/-- Stable insertion of an element into a list already sorted by
`ordemOutros`, placing it before the first element it precedes-or-equals:
combined with `ordenaEstavel` below this computes the unique stable sort of
the comparator, which is what the ECMAScript-mandated stable
`Array.prototype.sort` returns. -/
def insereOrdenado (x : Vinculo) : List Vinculo → List Vinculo
  | [] => [x]
  | y :: ys => if ordemOutros x y then x :: y :: ys else y :: insereOrdenado x ys

/-- Stable sort by `ordemOutros` (insertion sort, processed right to left so
that earlier elements are inserted in front of later equivalent ones). -/
def ordenaEstavel (l : List Vinculo) : List Vinculo :=
  l.foldr insereOrdenado []

/-- Context Selector `selecionarVinculosParaContexto` (source lines 779-801)
at an explicit limit: partition the user's records into mentioned-now and
others (both in store order), sort the others with the stable JS
`Array.prototype.sort` — modelled by the stable sort `ordenaEstavel` — and
truncate the concatenation. -/
def selecionarComLimite (data : List Vinculo) (nomesCitados : List String)
    (limite : Nat) : List Vinculo :=
  let nomesN := nomesCitados.map normalizeTexto
  let citados := data.filter (citadoPor nomesN)
  let outros := ordenaEstavel (data.filter (fun v => !(citadoPor nomesN v)))
  (citados ++ outros).take limite

/-- The selector at its default limit `limite = 3`. -/
def selecionarVinculosParaContexto (data : List Vinculo)
    (nomesCitados : List String) : List Vinculo :=
  selecionarComLimite data nomesCitados 3

/-- Repeated consolidation into one record: the record created by the first
(unmatched) mention, followed by a left-to-right sequence of in-place merges,
each given by the mention, the timestamp and the message excerpt. -/
def consolidaSeq (p0 : Pessoa) (t0 : Nat) (tr0 : String)
    (steps : List (Pessoa × Nat × String)) : Vinculo :=
  steps.foldl (fun v s => mergeVinculo v s.1 s.2.1 s.2.2) (novoVinculo 0 p0 t0 tr0)

/-- How a mention can evolve through the relativizer: it is either untouched,
or — only when its normalized type was parental — its type has been rewritten
to one of the two in-law types, every other field unchanged. -/
def evolvedPessoa (orig atual : Pessoa) : Prop :=
  atual = orig ∨
  (isTipoParental (normalizeTexto orig.tipo_vinculo) = true ∧
    (atual = { orig with tipo_vinculo := "sogra" } ∨
     atual = { orig with tipo_vinculo := "sogro" }))

/-- Fixture: an existing record named `Maria Souza` (for the Jaccard
scenario). -/
def vMariaSouza : Vinculo :=
  { id := 0, nome_real := "Maria Souza", tipo_vinculo := "amiga",
    apelidos_descricoes := [], marcador_emocional := [],
    contextos_relevantes := [], frequencia_mencao := 3, ultima_mencao := 1,
    historico_mencoes := [], perfil_compacto := "" }

/-- Fixture: a new mention of `Maria Silva Souza` with no aliases. -/
def pMariaSilvaSouza : Pessoa :=
  { nome_real := "Maria Silva Souza", apelidos := [], tipo_vinculo := "amiga",
    observacao := "" }

/-- Fixture: the store holding only the `Maria Souza` record. -/
def stMaria : Store := { vinculos := [vMariaSouza], nextId := 1 }

/-- Fixture: an existing spouse record known only by the nickname `Lu`. -/
def vEsposaLu : Vinculo :=
  { id := 0, nome_real := "", tipo_vinculo := "esposa",
    apelidos_descricoes := ["Lu"], marcador_emocional := [],
    contextos_relevantes := [], frequencia_mencao := 1, ultima_mencao := 0,
    historico_mencoes := [], perfil_compacto := "" }

/-- Fixture: a sister mention also known only as `Lu`. -/
def pIrmaLu : Pessoa :=
  { nome_real := "", apelidos := ["Lu"], tipo_vinculo := "irma",
    observacao := "" }

/-- Fixture: the store holding only the `esposa` record. -/
def stEsposaLu : Store := { vinculos := [vEsposaLu], nextId := 1 }

/-- Fixture: a spouse record with alias `Ana` (kinship relativization). -/
def vEsposaAna : Vinculo :=
  { id := 0, nome_real := "", tipo_vinculo := "esposa",
    apelidos_descricoes := ["Ana"], marcador_emocional := [],
    contextos_relevantes := [], frequencia_mencao := 1, ultima_mencao := 0,
    historico_mencoes := [], perfil_compacto := "" }

/-- Fixture: a mention typed `mae`. -/
def pMae : Pessoa :=
  { nome_real := "", apelidos := [], tipo_vinculo := "mae", observacao := "" }

/-- Fixture: a mention typed `pai`. -/
def pPai : Pessoa :=
  { nome_real := "", apelidos := [], tipo_vinculo := "pai", observacao := "" }

/-- Fixture: record with mention count 5 (context-ordering scenario). -/
def r5 : Vinculo :=
  { id := 1, nome_real := "A", tipo_vinculo := "amigo",
    apelidos_descricoes := [], marcador_emocional := [],
    contextos_relevantes := [], frequencia_mencao := 5, ultima_mencao := 10,
    historico_mencoes := [], perfil_compacto := "" }

/-- Fixture: record with mention count 1. -/
def r1 : Vinculo :=
  { id := 2, nome_real := "B", tipo_vinculo := "amigo",
    apelidos_descricoes := [], marcador_emocional := [],
    contextos_relevantes := [], frequencia_mencao := 1, ultima_mencao := 20,
    historico_mencoes := [], perfil_compacto := "" }

/-- Fixture: record with mention count 9. -/
def r9 : Vinculo :=
  { id := 3, nome_real := "C", tipo_vinculo := "amigo",
    apelidos_descricoes := [], marcador_emocional := [],
    contextos_relevantes := [], frequencia_mencao := 9, ultima_mencao := 5,
    historico_mencoes := [], perfil_compacto := "" }

/-- Fixture: a record for `Ana Maria` (store-failure scenario). -/
def vAnaMaria : Vinculo :=
  { id := 0, nome_real := "Ana Maria", tipo_vinculo := "amiga",
    apelidos_descricoes := [], marcador_emocional := [],
    contextos_relevantes := [], frequencia_mencao := 1, ultima_mencao := 0,
    historico_mencoes := [], perfil_compacto := "" }

/-- Fixture: a mention matching `vAnaMaria` by exact name. -/
def pAnaMaria : Pessoa :=
  { nome_real := "Ana Maria", apelidos := [], tipo_vinculo := "amiga",
    observacao := "" }

/-- Fixture: the store holding only the `Ana Maria` record. -/
def stAnaMaria : Store := { vinculos := [vAnaMaria], nextId := 1 }

/-- Fixture: the plan on which exactly the store read of the first mention
fails. -/
def planoLeituraFalha : FailurePlan :=
  { readFail := fun i => i == 0, writeFail := fun _ => false,
    perfilFail := fun _ => false }

/-- Fixture: a record for `Luciana Braga` (resolver witness). -/
def vLucianaBraga : Vinculo :=
  { id := 0, nome_real := "Luciana Braga", tipo_vinculo := "amiga",
    apelidos_descricoes := ["Lu Braga"], marcador_emocional := [],
    contextos_relevantes := [], frequencia_mencao := 2, ultima_mencao := 4,
    historico_mencoes := [], perfil_compacto := "" }

/-- Fixture: a later mention of `Luciana Braga` by exact name. -/
def pLucianaBraga : Pessoa :=
  { nome_real := "Luciana Braga", apelidos := [], tipo_vinculo := "amiga",
    observacao := "" }

/-- Fixture: fifteen further merges into one record. -/
def quinzeMerges : List (Pessoa × Nat × String) :=
  List.replicate 15 (pAnaMaria, 2, "oi de novo")

/-- Fixture: a spouse record with full name `Luciana Braga` (conflict gate
with strong evidence). -/
def vEsposaLuciana : Vinculo :=
  { id := 0, nome_real := "Luciana Braga", tipo_vinculo := "esposa",
    apelidos_descricoes := [], marcador_emocional := [],
    contextos_relevantes := [], frequencia_mencao := 1, ultima_mencao := 0,
    historico_mencoes := [], perfil_compacto := "" }

/-- Fixture: a sister mention carrying the same full name. -/
def pIrmaLuciana : Pessoa :=
  { nome_real := "Luciana Braga", apelidos := [], tipo_vinculo := "irma",
    observacao := "" }

/-- The history entry recorded by one merge step of `consolidaSeq`. -/
def itemDe (s : Pessoa × Nat × String) : HistItem :=
  { data := s.2.1, trecho := trunc240 s.2.2 }

/-- The running best score never decreases along the selection loop. -/
theorem buscarMelhor_mono (p : Pessoa) :
    ∀ (l : List Vinculo) (acc : Option Vinculo × Int), acc.2 ≤ (buscarMelhor p l acc).2
  | [], _ => le_refl _
  | v :: rest, acc => by
    unfold buscarMelhor
    by_cases hs : skipVinculo p v
    · simp only [hs, if_true]
      exact buscarMelhor_mono p rest acc
    · simp only [hs, if_false, Bool.false_eq_true]
      by_cases hlt : acc.2 < (scoreVinculo p v : Int)
      · simp only [hlt, if_true]
        exact le_trans (le_of_lt hlt) (buscarMelhor_mono p rest _)
      · simp only [hlt, if_false]
        exact buscarMelhor_mono p rest acc

/-- Every non-skipped candidate of the list is dominated by the final best
score. -/
theorem buscarMelhor_ge (p : Pessoa) :
    ∀ (l : List Vinculo) (acc : Option Vinculo × Int) (w : Vinculo),
      w ∈ l → skipVinculo p w = false →
      (scoreVinculo p w : Int) ≤ (buscarMelhor p l acc).2
  | v :: rest, acc, w, hw, hns => by
    unfold buscarMelhor
    rcases List.mem_cons.mp hw with hEq | hMem
    · subst hEq
      simp only [hns, if_false, Bool.false_eq_true]
      by_cases hlt : acc.2 < (scoreVinculo p w : Int)
      · simp only [hlt, if_true]
        exact le_trans (le_refl _) (buscarMelhor_mono p rest _)
      · simp only [hlt, if_false]
        exact le_trans (not_lt.mp hlt) (buscarMelhor_mono p rest acc)
    · by_cases hs : skipVinculo p v
      · simp only [hs, if_true]
        exact buscarMelhor_ge p rest acc w hMem hns
      · simp only [hs, if_false, Bool.false_eq_true]
        by_cases hlt : acc.2 < (scoreVinculo p v : Int)
        · simp only [hlt, if_true]
          exact buscarMelhor_ge p rest _ w hMem hns
        · simp only [hlt, if_false]
          exact buscarMelhor_ge p rest acc w hMem hns

/-- Loop invariant of the selection: whenever the final best candidate is
`some v`, then `v` comes from the scanned list (or was already the incoming
best), `v` was not skipped, and the final best score is exactly its score. -/
theorem buscarMelhor_inv (p : Pessoa) :
    ∀ (l : List Vinculo) (acc : Option Vinculo × Int),
      (∀ w, acc.1 = some w → skipVinculo p w = false ∧ acc.2 = (scoreVinculo p w : Int)) →
      ∀ v, (buscarMelhor p l acc).1 = some v →
        (v ∈ l ∨ acc.1 = some v) ∧ skipVinculo p v = false ∧
        (buscarMelhor p l acc).2 = (scoreVinculo p v : Int)
  | [], acc, hacc, v, hv => by
    refine ⟨Or.inr hv, ?_, ?_⟩
    · exact (hacc v hv).1
    · exact (hacc v hv).2
  | u :: rest, acc, hacc, v, hv => by
    unfold buscarMelhor at hv ⊢
    by_cases hs : skipVinculo p u
    · simp only [hs, if_true] at hv ⊢
      rcases buscarMelhor_inv p rest acc hacc v hv with ⟨hmem, hns, hsc⟩
      exact ⟨hmem.imp (List.mem_cons_of_mem u) id, hns, hsc⟩
    · simp only [hs, if_false, Bool.false_eq_true] at hv ⊢
      by_cases hlt : acc.2 < (scoreVinculo p u : Int)
      · simp only [hlt, if_true] at hv ⊢
        have hacc2 : ∀ w, (some u, (scoreVinculo p u : Int)).1 = some w →
            skipVinculo p w = false ∧
            ((some u, (scoreVinculo p u : Int)) : Option Vinculo × Int).2
              = (scoreVinculo p w : Int) := by
          intro w hw
          have : u = w := by simpa using hw
          subst this
          exact ⟨Bool.not_eq_true _ ▸ (by simpa using hs), rfl⟩
        rcases buscarMelhor_inv p rest _ hacc2 v hv with ⟨hmem, hns, hsc⟩
        rcases hmem with hmem | hmem
        · exact ⟨Or.inl (List.mem_cons_of_mem u hmem), hns, hsc⟩
        · have : u = v := by simpa using hmem
          subst this
          exact ⟨Or.inl (List.mem_cons_self u rest), hns, hsc⟩
      · simp only [hlt, if_false] at hv ⊢
        rcases buscarMelhor_inv p rest acc hacc v hv with ⟨hmem, hns, hsc⟩
        exact ⟨hmem.imp (List.mem_cons_of_mem u) id, hns, hsc⟩

/-- Soundness of the Match Resolver: a returned candidate is an element of
the input list, it passed the conflict gate, its score reaches the
acceptance threshold 5, and no other non-skipped candidate scores higher. -/
theorem encontrarMatch_spec (existing : List Vinculo) (p : Pessoa) (v : Vinculo)
    (h : encontrarMatchVinculo existing p = some v) :
    v ∈ existing ∧ skipVinculo p v = false ∧ 5 ≤ scoreVinculo p v ∧
    ∀ w ∈ existing, skipVinculo p w = false → scoreVinculo p w ≤ scoreVinculo p v := by
  have h2 : (if (5 : Int) ≤ (buscarMelhor p existing (none, -1)).2
      then (buscarMelhor p existing (none, -1)).1 else none) = some v := h
  by_cases h5 : (5 : Int) ≤ (buscarMelhor p existing (none, -1)).2
  · rw [if_pos h5] at h2
    have hacc : ∀ w, ((none, -1) : Option Vinculo × Int).1 = some w →
        skipVinculo p w = false ∧
        ((none, -1) : Option Vinculo × Int).2 = (scoreVinculo p w : Int) := by
      intro w hw; simp at hw
    rcases buscarMelhor_inv p existing (none, -1) hacc v h2 with ⟨hmem, hns, hsc⟩
    have hmem2 : v ∈ existing := by
      rcases hmem with hmem | hmem
      · exact hmem
      · cases hmem
    have hscore : 5 ≤ scoreVinculo p v := by
      have := hsc ▸ h5
      exact_mod_cast this
    refine ⟨hmem2, hns, hscore, ?_⟩
    intro w hw hwns
    have := buscarMelhor_ge p existing (none, -1) w hw hwns
    rw [hsc] at this
    exact_mod_cast this
  · rw [if_neg h5] at h2
    cases h2

/-- Completeness of the null return: when every non-skipped candidate scores
below 5, the resolver returns null. -/
theorem encontrarMatch_none (existing : List Vinculo) (p : Pessoa)
    (h : ∀ w ∈ existing, skipVinculo p w = false → scoreVinculo p w < 5) :
    encontrarMatchVinculo existing p = none := by
  show (if (5 : Int) ≤ (buscarMelhor p existing (none, -1)).2
      then (buscarMelhor p existing (none, -1)).1 else none) = none
  by_cases h5 : (5 : Int) ≤ (buscarMelhor p existing (none, -1)).2
  · rw [if_pos h5]
    cases hb : (buscarMelhor p existing (none, -1)).1 with
    | none => rfl
    | some v =>
      have hacc : ∀ w, ((none, -1) : Option Vinculo × Int).1 = some w →
          skipVinculo p w = false ∧
          ((none, -1) : Option Vinculo × Int).2 = (scoreVinculo p w : Int) := by
        intro w hw; simp at hw
      rcases buscarMelhor_inv p existing (none, -1) hacc v hb with ⟨hmem, hns, hsc⟩
      have hmem2 : v ∈ existing := by
        rcases hmem with hmem | hmem
        · exact hmem
        · cases hmem
      have hlt : scoreVinculo p v < 5 := h v hmem2 hns
      rw [hsc] at h5
      have : (5 : Int) ≤ (scoreVinculo p v : Int) := h5
      have : (5 : Nat) ≤ scoreVinculo p v := by exact_mod_cast this
      omega
  · rw [if_neg h5]

/-- The sequentially accumulated score equals the claim-side sum-of-criteria
formula: the Jaccard guard `!score` is exactly "none of the first three
criteria fired", because each of them contributes a positive amount. -/
theorem score_eq_spec (p : Pessoa) (v : Vinculo) : scoreVinculo p v = scoreSpec p v := by
  unfold scoreVinculo scoreSpec
  by_cases h1 : temNomeExato p v <;>
    by_cases h2 : temAliasComposto p v <;>
      by_cases h3 : (temAliasSimples p v &&
          !(groupsConflict v.tipo_vinculo p.tipo_vinculo)) = true <;>
    simp [h1, h2, h3]

/-- An exact-name match alone already reaches the acceptance threshold. -/
theorem score_nome_exato (p : Pessoa) (v : Vinculo)
    (h : temNomeExato p v = true) : 5 ≤ scoreVinculo p v := by
  unfold scoreVinculo
  simp only [h, if_true]
  omega

/-- A multi-word alias match alone already reaches the acceptance
threshold. -/
theorem score_alias_composto (p : Pessoa) (v : Vinculo)
    (h : temAliasComposto p v = true) : 5 ≤ scoreVinculo p v := by
  unfold scoreVinculo
  simp only [h, if_true]
  omega

/-- Without a strong signal the score stays below the threshold: the bare
single-token alias bonus gives 2, and the Jaccard fallback (4) fires only
when even that bonus is absent, so the total is at most 4. -/
theorem score_sem_forte (p : Pessoa) (v : Vinculo)
    (h1 : temNomeExato p v = false) (h2 : temAliasComposto p v = false) :
    scoreVinculo p v < 5 := by
  unfold scoreVinculo
  simp only [h1, h2, if_false, Bool.false_eq_true]
  by_cases h3 : (temAliasSimples p v &&
      !(groupsConflict v.tipo_vinculo p.tipo_vinculo)) = true
  · simp [h3]
  · simp only [h3, if_false, Bool.false_eq_true]
    split <;> omega

/-- Helper: the classifier can only return one of its five group names. -/
theorem familyGroup_mem (t : String) :
    familyGroup t = "conjugal" ∨ familyGroup t = "irmao" ∨
    familyGroup t = "parental" ∨ familyGroup t = "filhos" ∨
    familyGroup t = "outros" := by
  unfold familyGroup
  split_ifs <;> simp

/-- C1: the resolver returns the non-skipped candidate with the highest
score and accepts it only when that score is at least 5, otherwise null; the
score is the stated sum of the four criteria (+6 exact name, +5 multi-word
alias, +2 conflict-free single-token alias, +4 Jaccard fallback only when
nothing scored yet); one strong signal alone reaches the threshold while a
bare single-token alias collision alone never does. -/
theorem spec_C1 :
    (∀ existing p v, encontrarMatchVinculo existing p = some v →
        v ∈ existing ∧ skipVinculo p v = false ∧ 5 ≤ scoreVinculo p v ∧
        ∀ w ∈ existing, skipVinculo p w = false →
          scoreVinculo p w ≤ scoreVinculo p v)
    ∧ (∀ existing p,
        (∀ w ∈ existing, skipVinculo p w = false → scoreVinculo p w < 5) →
        encontrarMatchVinculo existing p = none)
    ∧ (∀ p v, scoreVinculo p v = scoreSpec p v)
    ∧ (∀ p v, temNomeExato p v = true → 5 ≤ scoreVinculo p v)
    ∧ (∀ p v, temAliasComposto p v = true → 5 ≤ scoreVinculo p v)
    ∧ (∀ p v, temNomeExato p v = false → temAliasComposto p v = false →
        scoreVinculo p v < 5) :=
  ⟨encontrarMatch_spec, encontrarMatch_none, score_eq_spec,
   score_nome_exato, score_alias_composto, score_sem_forte⟩

/-- Witness for C1 at concrete inputs: an exact-name re-mention is accepted
(threshold reached), and a bare nickname collision with a conflicting type
yields null. -/
theorem spec_C1_witness :
    5 ≤ scoreVinculo pLucianaBraga vLucianaBraga ∧
    encontrarMatchVinculo [vEsposaLu] pIrmaLu = none :=
  ⟨(spec_C1.1 [vLucianaBraga] pLucianaBraga vLucianaBraga (by decide)).2.2.1,
   spec_C1.2.1 [vEsposaLu] pIrmaLu (by decide)⟩

/-- C2: a returned candidate whose group conflicts with the mention's group
always carries strong evidence; the conflicting group pairs are exactly
conjugal and sibling and conjugal and parental, in both orders; same-group
pairs never conflict; pairs involving the catch-all group never conflict;
and the esposa-versus-irma nickname collision creates a second record
instead of merging. -/
theorem spec_C2 :
    (∀ existing p v, encontrarMatchVinculo existing p = some v →
        groupsConflict v.tipo_vinculo p.tipo_vinculo = true →
        strongEvidence p v = true)
    ∧ (∀ a b, groupsConflict a b = true ↔
        ((familyGroup a = "conjugal" ∧ familyGroup b = "irmao") ∨
         (familyGroup a = "irmao" ∧ familyGroup b = "conjugal") ∨
         (familyGroup a = "conjugal" ∧ familyGroup b = "parental") ∨
         (familyGroup a = "parental" ∧ familyGroup b = "conjugal")))
    ∧ (∀ a b, familyGroup a = familyGroup b → groupsConflict a b = false)
    ∧ (∀ a b, familyGroup a = "outros" ∨ familyGroup b = "outros" →
        groupsConflict a b = false)
    ∧ (encontrarMatchVinculo [vEsposaLu] pIrmaLu = none ∧
       (upsertVinculoSt false false stEsposaLu pIrmaLu 7 "oi").1.vinculos.length = 2) := by
  refine ⟨?_, ?_, ?_, ?_, by decide, by decide⟩
  · intro existing p v h hconf
    have hskip := (encontrarMatch_spec existing p v h).2.1
    unfold skipVinculo at hskip
    rw [hconf] at hskip
    simpa using hskip
  · intro a b
    rcases familyGroup_mem a with ha | ha | ha | ha | ha <;>
      rcases familyGroup_mem b with hb | hb | hb | hb | hb <;>
        simp [groupsConflict, ha, hb]
  · intro a b h
    simp [groupsConflict, h]
  · intro a b h
    rcases h with h | h <;>
      rcases familyGroup_mem a with ha | ha | ha | ha | ha <;>
        rcases familyGroup_mem b with hb | hb | hb | hb | hb <;>
          simp_all [groupsConflict]

/-- Witness for C2 at concrete inputs: an exact full-name match overrides
the esposa-versus-irma conflict, same-group labels never conflict, and a
pair involving the catch-all group never conflicts. -/
theorem spec_C2_witness :
    strongEvidence pIrmaLuciana vEsposaLuciana = true ∧
    groupsConflict ("amigo") ("amiga") = false ∧
    groupsConflict ("esposa") ("chefe") = false :=
  ⟨spec_C2.1 [vEsposaLuciana] pIrmaLuciana vEsposaLuciana (by decide) (by decide),
   spec_C2.2.2.1 ("amigo") ("amiga") (by decide),
   spec_C2.2.2.2.1 ("esposa") ("chefe") (Or.inr (by decide))⟩

/-- C3: when the resolver matches an existing record, the consolidator
updates that record in place; the merged record increments the mention
count, stamps the last-mention time, keeps the existing name unless the
existing one is empty and the new one non-empty or the new one is strictly
longer (ties favouring the existing name), and takes the newly observed
relation type when present, else keeps the existing one. -/
theorem spec_C3 :
    ∀ (st : Store) (p : Pessoa) (agora : Nat) (trecho : String) (m : Vinculo),
      encontrarMatchVinculo st.vinculos p = some m →
      (upsertVinculoSt false false st p agora trecho).2 = some m.id ∧
      (upsertVinculoSt false false st p agora trecho).1.vinculos
        = st.vinculos.map
            (fun v => if v.id == m.id then mergeVinculo m p agora trecho else v) ∧
      (mergeVinculo m p agora trecho).frequencia_mencao = m.frequencia_mencao + 1 ∧
      (mergeVinculo m p agora trecho).ultima_mencao = agora ∧
      (m.nome_real = "" → p.nome_real ≠ "" →
        (mergeVinculo m p agora trecho).nome_real = p.nome_real) ∧
      (m.nome_real.length < p.nome_real.length →
        (mergeVinculo m p agora trecho).nome_real = p.nome_real) ∧
      (¬(m.nome_real = "" ∧ p.nome_real ≠ "") →
        ¬(m.nome_real.length < p.nome_real.length) →
        (mergeVinculo m p agora trecho).nome_real = m.nome_real) ∧
      (p.tipo_vinculo ≠ "" →
        (mergeVinculo m p agora trecho).tipo_vinculo = p.tipo_vinculo) ∧
      (p.tipo_vinculo = "" →
        (mergeVinculo m p agora trecho).tipo_vinculo = m.tipo_vinculo) := by
  intro st p agora trecho m h
  refine ⟨?_, ?_, rfl, rfl, ?_, ?_, ?_, ?_, ?_⟩
  · simp [upsertVinculoSt, h]
  · simp [upsertVinculoSt, h]
  · intro hv hn
    unfold mergeVinculo
    have hcond : (m.nome_real = "" ∧ p.nome_real ≠ "") ∨
        (p.nome_real ≠ "" ∧ m.nome_real.length < p.nome_real.length) :=
      Or.inl ⟨hv, hn⟩
    simp only [if_pos hcond, if_pos hn]
  · intro hlen
    have hn : p.nome_real ≠ "" := by
      intro hp
      rw [hp] at hlen
      simp at hlen
    unfold mergeVinculo
    have hcond : (m.nome_real = "" ∧ p.nome_real ≠ "") ∨
        (p.nome_real ≠ "" ∧ m.nome_real.length < p.nome_real.length) :=
      Or.inr ⟨hn, hlen⟩
    simp only [if_pos hcond, if_pos hn]
  · intro hA hB
    unfold mergeVinculo
    have hcond : ¬((m.nome_real = "" ∧ p.nome_real ≠ "") ∨
        (p.nome_real ≠ "" ∧ m.nome_real.length < p.nome_real.length)) := by
      rintro (h1 | h2)
      · exact hA h1
      · exact hB h2.2
    simp only [if_neg hcond]
    split <;> rfl
  · intro ht
    simp [mergeVinculo, if_pos ht]
  · intro ht
    simp [mergeVinculo, ht]

/-- Witness for C3 at a concrete matched re-mention: the merged record's
mention count is the old count plus one. -/
theorem spec_C3_witness :
    (mergeVinculo vAnaMaria pAnaMaria 9 "tr").frequencia_mencao
      = vAnaMaria.frequencia_mencao + 1 :=
  (spec_C3 stAnaMaria pAnaMaria 9 "tr" vAnaMaria (by decide)).2.2.1

/-- Helper: prepending a pre-truncated list does not change a bounded
suffix-truncating take. -/
theorem take_append_take (n : Nat) (xs ys : List HistItem) :
    List.take n (xs ++ List.take n ys) = List.take n (xs ++ ys) := by
  rw [List.take_append_eq_append_take, List.take_append_eq_append_take,
    List.take_take]
  congr 1
  rw [Nat.min_eq_left (Nat.sub_le n xs.length)]

/-- Helper: truncating to the last 12 before appending more entries gives the
same result as truncating once at the end. -/
theorem sliceLast_cat (l m : List HistItem) :
    sliceLast 12 (sliceLast 12 l ++ m) = sliceLast 12 (l ++ m) := by
  unfold sliceLast
  rw [List.reverse_append, List.reverse_reverse, List.reverse_append]
  congr 1
  exact take_append_take 12 m.reverse l.reverse

/-- Helper: a list already within the bound is left unchanged. -/
theorem sliceLast_of_le (n : Nat) (l : List HistItem) (h : l.length ≤ n) :
    sliceLast n l = l := by
  unfold sliceLast
  rw [List.take_of_length_le (by simpa using h), List.reverse_reverse]

/-- Helper: length of the retained suffix. -/
theorem sliceLast_length (n : Nat) (l : List HistItem) :
    (sliceLast n l).length = min n l.length := by
  unfold sliceLast
  simp

/-- Helper: the retained suffix only holds entries of the original list. -/
theorem mem_sliceLast {e : HistItem} {n : Nat} {l : List HistItem}
    (h : e ∈ sliceLast n l) : e ∈ l := by
  unfold sliceLast at h
  rw [List.mem_reverse] at h
  have h2 := List.mem_of_mem_take h
  rwa [List.mem_reverse] at h2

/-- Helper: truncated excerpts are at most 240 characters long. -/
theorem trunc240_le (s : String) : (trunc240 s).length ≤ 240 := by
  have h : (trunc240 s).length = (s.data.take 240).length := rfl
  rw [h, List.length_take]
  exact Nat.min_le_left _ _

/-- Helper: the history of a record evolves through a merge sequence as the
FIFO truncation of all appended entries. -/
theorem consolida_hist (steps : List (Pessoa × Nat × String)) :
    ∀ v : Vinculo, v.historico_mencoes.length ≤ 12 →
      (steps.foldl (fun v s => mergeVinculo v s.1 s.2.1 s.2.2) v).historico_mencoes
        = sliceLast 12 (v.historico_mencoes ++ steps.map itemDe) := by
  induction steps with
  | nil =>
    intro v hv
    simp [sliceLast_of_le 12 _ hv]
  | cons s rest ih =>
    intro v hv
    simp only [List.foldl_cons, List.map_cons]
    have h1 : (mergeVinculo v s.1 s.2.1 s.2.2).historico_mencoes
        = sliceLast 12 (v.historico_mencoes ++ [itemDe s]) := rfl
    have h2 : (mergeVinculo v s.1 s.2.1 s.2.2).historico_mencoes.length ≤ 12 := by
      rw [h1, sliceLast_length]
      exact Nat.min_le_left _ _
    rw [ih _ h2, h1, sliceLast_cat]
    simp

/-- C4: after any sequence of consolidations into one record the mention
history is the FIFO truncation (capacity 12, oldest evicted first) of all
recorded excerpts; after 15 merges its length is exactly 12 and it is the
suffix of the 12 most recent entries in chronological order; and every
stored excerpt has at most 240 characters. -/
theorem spec_C4 :
    (∀ (p0 : Pessoa) (t0 : Nat) (tr0 : String) (steps : List (Pessoa × Nat × String)),
      (consolidaSeq p0 t0 tr0 steps).historico_mencoes
        = sliceLast 12 (({ data := t0, trecho := trunc240 tr0 } : HistItem)
            :: steps.map itemDe))
    ∧ (∀ (p0 : Pessoa) (t0 : Nat) (tr0 : String) (steps : List (Pessoa × Nat × String)),
        steps.length = 15 →
        (consolidaSeq p0 t0 tr0 steps).historico_mencoes.length = 12)
    ∧ (∀ (p0 : Pessoa) (t0 : Nat) (tr0 : String)
        (steps : List (Pessoa × Nat × String)) (e : HistItem),
        e ∈ (consolidaSeq p0 t0 tr0 steps).historico_mencoes →
        e.trecho.length ≤ 240) := by
  have hfold : ∀ (p0 : Pessoa) (t0 : Nat) (tr0 : String)
      (steps : List (Pessoa × Nat × String)),
      (consolidaSeq p0 t0 tr0 steps).historico_mencoes
        = sliceLast 12 (({ data := t0, trecho := trunc240 tr0 } : HistItem)
            :: steps.map itemDe) := by
    intro p0 t0 tr0 steps
    unfold consolidaSeq
    have h0 : (novoVinculo 0 p0 t0 tr0).historico_mencoes
        = [({ data := t0, trecho := trunc240 tr0 } : HistItem)] := rfl
    have h1 : (novoVinculo 0 p0 t0 tr0).historico_mencoes.length ≤ 12 := by
      rw [h0]
      simp
    rw [consolida_hist steps _ h1, h0]
    simp
  refine ⟨hfold, ?_, ?_⟩
  · intro p0 t0 tr0 steps hlen
    rw [hfold, sliceLast_length]
    simp [hlen]
  · intro p0 t0 tr0 steps e he
    rw [hfold] at he
    have := mem_sliceLast he
    rcases List.mem_cons.mp this with h | h
    · rw [h]
      exact trunc240_le tr0
    · rcases List.mem_map.mp h with ⟨s, _, hs⟩
      rw [← hs]
      exact trunc240_le s.2.2

/-- Witness for C4: fifteen concrete merges leave exactly 12 history entries,
and a concrete stored excerpt respects the 240-character bound. -/
theorem spec_C4_witness :
    (consolidaSeq pAnaMaria 0 "oi" quinzeMerges).historico_mencoes.length = 12 ∧
    ({ data := 2, trecho := "oi de novo" } : HistItem).trecho.length ≤ 240 :=
  ⟨spec_C4.2.1 pAnaMaria 0 "oi" quinzeMerges (by decide),
   spec_C4.2.2 pAnaMaria 0 "oi" quinzeMerges { data := 2, trecho := "oi de novo" }
     (by decide)⟩

/-- Helper: one remap step of the relativizer keeps a mention inside its
evolution envelope: untouched, or parental rewritten to an in-law type. -/
theorem evolved_step (kw : String) (a b : Pessoa) (h : evolvedPessoa a b) :
    evolvedPessoa a
      (if isTipoParental (normalizeTexto b.tipo_vinculo) then
        { b with tipo_vinculo :=
            if comecaComP (normalizeTexto kw) then "sogro" else "sogra" }
      else b) := by
  rcases h with h | ⟨hp, h | h⟩
  · subst h
    by_cases hb : isTipoParental (normalizeTexto b.tipo_vinculo)
    · rw [if_pos hb]
      right
      refine ⟨hb, ?_⟩
      by_cases hk : comecaComP (normalizeTexto kw)
      · right
        rw [if_pos hk]
      · left
        rw [if_neg hk]
    · rw [if_neg hb]
      left
      rfl
  · subst h
    have hs : isTipoParental (normalizeTexto ("sogra")) = false := by decide
    have hproj : ({ a with tipo_vinculo := "sogra" } : Pessoa).tipo_vinculo
        = "sogra" := rfl
    rw [hproj, hs]
    simp only [Bool.false_eq_true, if_false]
    exact Or.inr ⟨hp, Or.inl rfl⟩
  · subst h
    have hs : isTipoParental (normalizeTexto ("sogro")) = false := by decide
    have hproj : ({ a with tipo_vinculo := "sogro" } : Pessoa).tipo_vinculo
        = "sogro" := rfl
    rw [hproj, hs]
    simp only [Bool.false_eq_true, if_false]
    exact Or.inr ⟨hp, Or.inr rfl⟩

/-- Helper: the evolution envelope is reflexive on lists. -/
theorem forall2_evolved_refl : ∀ l : List Pessoa, List.Forall₂ evolvedPessoa l l
  | [] => List.Forall₂.nil
  | _ :: xs => List.Forall₂.cons (Or.inl rfl) (forall2_evolved_refl xs)

/-- Helper: the whole regex-match loop keeps every mention inside its
evolution envelope. -/
theorem foldl_evolved (conj : List Vinculo) (ms : List (String × String)) :
    ∀ (orig out : List Pessoa), List.Forall₂ evolvedPessoa orig out →
      List.Forall₂ evolvedPessoa orig (ms.foldl (aplicaCasamento conj) out) := by
  induction ms with
  | nil => intro orig out h; exact h
  | cons m rest ih =>
    intro orig out h
    simp only [List.foldl_cons]
    apply ih
    unfold aplicaCasamento
    split
    · rw [List.forall₂_map_right_iff]
      exact h.imp (fun a b hab => evolved_step m.1 a b hab)
    · exact h

/-- C5 counterexample: the claim reads the matched pattern as
`mãe/pai de/da <name>`, but the source regex preposition is `da?` (a `d`
with an optional `a`), which never matches `de`; with a spouse record
aliased `Ana` — so the claim's premises hold: a spouse exists and the name
after the pattern matches it — the message `mãe de Ana` leaves the `mae`
mention untouched instead of remapping it to `sogra`. -/
theorem spec_C5_cex :
    inferirParentescoRelativo ("mãe de Ana") [vEsposaAna] [pMae] = [pMae] ∧
    pMae.tipo_vinculo = "mae" ∧
    getConjuges [vEsposaAna] = [vEsposaAna] ∧
    matchNomeOuAlias vEsposaAna ("Ana") = true ∧
    casamentosRegex ("mãe de Ana") = [] := by
  refine ⟨by decide, rfl, by decide, by decide, by decide⟩

/-- C5 (amended): with no spouse records the relativizer is a passthrough;
in general every mention is either untouched or — only when its type is
parental — rewritten to an in-law type, all other fields unchanged; a
message matching `mãe da <spouse>` remaps a `mae` mention to `sogra` and
`pai da <spouse>` remaps a `pai` mention to `sogro`; the in-law type is
chosen by the keyword found in the text, so a `pai` mention under a
`mãe da <spouse>` match also becomes `sogra`. -/
theorem spec_C5 :
    (∀ (texto : String) (store : List Vinculo) (pessoas : List Pessoa),
        getConjuges store = [] →
        inferirParentescoRelativo texto store pessoas = pessoas)
    ∧ (∀ (texto : String) (store : List Vinculo) (pessoas : List Pessoa),
        List.Forall₂ evolvedPessoa pessoas
          (inferirParentescoRelativo texto store pessoas))
    ∧ inferirParentescoRelativo ("mãe da Ana") [vEsposaAna] [pMae]
        = [{ pMae with tipo_vinculo := "sogra" }]
    ∧ inferirParentescoRelativo ("pai da Ana") [vEsposaAna] [pPai]
        = [{ pPai with tipo_vinculo := "sogro" }]
    ∧ inferirParentescoRelativo ("mãe da Ana") [vEsposaAna] [pPai]
        = [{ pPai with tipo_vinculo := "sogra" }] := by
  refine ⟨?_, ?_, by decide, by decide, by decide⟩
  · intro texto store pessoas h
    unfold inferirParentescoRelativo
    rw [h]
    simp
  · intro texto store pessoas
    unfold inferirParentescoRelativo
    split
    · exact forall2_evolved_refl pessoas
    · exact foldl_evolved (getConjuges store) (casamentosRegex texto)
        pessoas pessoas (forall2_evolved_refl pessoas)

/-- Witness for C5 at a concrete no-spouse store: the batch passes through
unchanged. -/
theorem spec_C5_witness :
    inferirParentescoRelativo ("olá") [vMariaSouza] [pMae] = [pMae] :=
  spec_C5.1 ("olá") [vMariaSouza] [pMae] (by decide)

/-- C6 counterexample: the claim asserts that a mention named
`Maria Silva Souza` merges into the existing `Maria Souza` record through
the Jaccard fallback, reading 2/3 as at least 0.70; in fact 2/3 < 0.70, the
fallback does not fire, and the resolver returns null instead of that
record. -/
theorem spec_C6_cex :
    encontrarMatchVinculo [vMariaSouza] pMariaSilvaSouza = none := by decide

/-- C6 (amended): for the `Maria Silva Souza` mention against the
`Maria Souza` record the token sets have sizes 3 and 2 with intersection 2,
so the Jaccard similarity is 2/3 < 0.70; the fallback test is false, the
total score is 0, the resolver returns null, and consolidation inserts a
second (duplicate) record instead of merging. -/
theorem spec_C6 :
    (tokensDe (normalizeTexto pMariaSilvaSouza.nome_real)).dedup.length = 3 ∧
    (tokensDe (normalizeTexto vMariaSouza.nome_real)).dedup.length = 2 ∧
    ((tokensDe (normalizeTexto pMariaSilvaSouza.nome_real)).dedup.filter
        (fun x => (tokensDe (normalizeTexto vMariaSouza.nome_real)).dedup.contains x)).length
      = 2 ∧
    jaccardAceita pMariaSilvaSouza vMariaSouza = false ∧
    scoreVinculo pMariaSilvaSouza vMariaSouza = 0 ∧
    (upsertVinculoSt false false stMaria pMariaSilvaSouza 4 "msg").1.vinculos.length = 2 := by
  refine ⟨by decide, by decide, by decide, by decide, by decide, by decide⟩

/-- Helper: the context comparator is total. -/
theorem ordemOutros_total (a b : Vinculo) :
    ordemOutros a b = true ∨ ordemOutros b a = true := by
  simp only [ordemOutros, Bool.or_eq_true, Bool.and_eq_true, decide_eq_true_eq]
  omega

/-- Helper: the context comparator is transitive. -/
theorem ordemOutros_trans (a b c : Vinculo) (h1 : ordemOutros a b = true)
    (h2 : ordemOutros b c = true) : ordemOutros a c = true := by
  simp only [ordemOutros, Bool.or_eq_true, Bool.and_eq_true,
    decide_eq_true_eq] at h1 h2 ⊢
  omega

/-- Helper: stable insertion only adds the inserted element. -/
theorem insereOrdenado_perm (x : Vinculo) :
    ∀ l : List Vinculo, List.Perm (insereOrdenado x l) (x :: l)
  | [] => List.Perm.refl _
  | y :: ys => by
    unfold insereOrdenado
    split
    · exact List.Perm.refl _
    · exact (List.Perm.cons y (insereOrdenado_perm x ys)).trans
        (List.Perm.swap x y ys)

/-- Helper: the stable sort permutes its input. -/
theorem ordenaEstavel_perm (l : List Vinculo) : List.Perm (ordenaEstavel l) l := by
  induction l with
  | nil => exact List.Perm.refl _
  | cons x xs ih =>
    unfold ordenaEstavel at ih ⊢
    simp only [List.foldr_cons]
    exact (insereOrdenado_perm x _).trans (List.Perm.cons x ih)

/-- Helper: stable insertion preserves sortedness by the comparator. -/
theorem insereOrdenado_sorted (x : Vinculo) :
    ∀ l : List Vinculo, List.Pairwise (fun a b => ordemOutros a b = true) l →
      List.Pairwise (fun a b => ordemOutros a b = true) (insereOrdenado x l)
  | [], _ => by simp [insereOrdenado]
  | y :: ys, h => by
    unfold insereOrdenado
    rcases List.pairwise_cons.mp h with ⟨hy, hys⟩
    split
    · rename_i hxy
      refine List.pairwise_cons.mpr ⟨?_, h⟩
      intro b hb
      rcases List.mem_cons.mp hb with hb | hb
      · rw [hb]
        exact hxy
      · exact ordemOutros_trans x y b hxy (hy b hb)
    · rename_i hxy
      have hyx : ordemOutros y x = true := by
        rcases ordemOutros_total x y with h1 | h1
        · exact absurd h1 hxy
        · exact h1
      refine List.pairwise_cons.mpr ⟨?_, insereOrdenado_sorted x ys hys⟩
      intro b hb
      have hb2 : b ∈ x :: ys := (insereOrdenado_perm x ys).mem_iff.mp hb
      rcases List.mem_cons.mp hb2 with hb2 | hb2
      · rw [hb2]
        exact hyx
      · exact hy b hb2

/-- Helper: the stable sort is sorted by the comparator. -/
theorem ordenaEstavel_sorted (l : List Vinculo) :
    List.Pairwise (fun a b => ordemOutros a b = true) (ordenaEstavel l) := by
  induction l with
  | nil => exact List.Pairwise.nil
  | cons x xs ih =>
    unfold ordenaEstavel at ih ⊢
    simp only [List.foldr_cons]
    exact insereOrdenado_sorted x _ ih

/-- C7: the selector partitions the records into mentioned-now and others,
orders the others by mention count descending then last-mention timestamp
descending (a permutation of the partition, sorted by the comparator), and
returns mentioned-now followed by the sorted others truncated to the limit;
the default limit is 3; and for records with counts [5, 1, 9], none
mentioned, limit 2, it returns the records with counts [9, 5] in that
order. -/
theorem spec_C7 :
    (∀ (data : List Vinculo) (nomes : List String) (limite : Nat),
      selecionarComLimite data nomes limite
        = (data.filter (citadoPor (nomes.map normalizeTexto))
            ++ ordenaEstavel (data.filter
                (fun v => !(citadoPor (nomes.map normalizeTexto) v)))).take limite
      ∧ List.Perm
          (ordenaEstavel (data.filter
            (fun v => !(citadoPor (nomes.map normalizeTexto) v))))
          (data.filter (fun v => !(citadoPor (nomes.map normalizeTexto) v)))
      ∧ List.Pairwise (fun a b => ordemOutros a b = true)
          (ordenaEstavel (data.filter
            (fun v => !(citadoPor (nomes.map normalizeTexto) v)))))
    ∧ (∀ (data : List Vinculo) (nomes : List String),
        selecionarVinculosParaContexto data nomes = selecionarComLimite data nomes 3)
    ∧ selecionarComLimite [r5, r1, r9] [] 2 = [r9, r5] :=
  ⟨fun data nomes _ => ⟨rfl, ordenaEstavel_perm _, ordenaEstavel_sorted _⟩,
   fun _ _ => rfl, by decide⟩

/-- C8 counterexample: `uniqMerge` builds its seen-set from the existing
aliases only and never extends it while the new aliases are scanned, so two
new aliases that are equal under normalization both survive; and the insert
path stores the mention aliases verbatim with no de-duplication at all.
`Lu` and `LU` both normalize to `lu`. -/
theorem spec_C8_cex :
    uniqMerge [] ["Lu", "LU"] = ["Lu", "LU"] ∧
    normalizeTexto ("Lu") = normalizeTexto ("LU") ∧
    (novoVinculo 0
        { nome_real := "", apelidos := ["Lu", "LU"], tipo_vinculo := "amiga",
          observacao := "" } 0 "x").apelidos_descricoes = ["Lu", "LU"] := by
  refine ⟨by decide, by decide, rfl⟩

/-- C8 (amended): `uniqMerge` keeps every existing alias in place (first-seen
casing wins) and appends a new alias only when its normalization is absent
from the existing list; consequently the merge result is free of normalized
duplicates provided both the existing aliases and the incoming aliases are
themselves free of normalized duplicates — the code does not de-duplicate
within the incoming list, and inserts store the mention aliases verbatim. -/
theorem spec_C8 :
    (∀ a b : List String,
      (a.map normalizeTexto).Nodup → (b.map normalizeTexto).Nodup →
      ((uniqMerge a b).map normalizeTexto).Nodup)
    ∧ (∀ a b : List String, uniqMerge a b
        = a ++ b.filter
            (fun x => !((a.map normalizeTexto).contains (normalizeTexto x))))
    ∧ (∀ (a b : List String) (x : String), x ∈ a → x ∈ uniqMerge a b)
    ∧ (∀ (a b : List String) (x : String), x ∈ b →
        (a.map normalizeTexto).contains (normalizeTexto x) = false →
        x ∈ uniqMerge a b) := by
  refine ⟨?_, fun a b => rfl, ?_, ?_⟩
  · intro a b ha hb
    unfold uniqMerge
    rw [List.map_append, List.nodup_append]
    refine ⟨ha, ?_, ?_⟩
    · exact ((List.filter_sublist b).map normalizeTexto).nodup hb
    · intro x hx
      rw [List.mem_map]
      rintro ⟨y, hy, hyx⟩
      rcases List.mem_filter.mp hy with ⟨_, hpred⟩
      rw [Bool.not_eq_eq_eq_not, Bool.not_true] at hpred
      have hmem : normalizeTexto y ∈ a.map normalizeTexto := hyx ▸ hx
      rw [← List.elem_iff] at hmem
      have hpred2 : List.elem (normalizeTexto y) (List.map normalizeTexto a)
          = false := hpred
      rw [hmem] at hpred2
      cases hpred2
  · intro a b x hx
    unfold uniqMerge
    exact List.mem_append_left _ hx
  · intro a b x hx hpred
    unfold uniqMerge
    refine List.mem_append_right _ (List.mem_filter.mpr ⟨hx, ?_⟩)
    rw [hpred]
    rfl

/-- Witness for C8 at concrete alias lists that are free of normalized
duplicates on both sides: the merged list is free of normalized
duplicates. -/
theorem spec_C8_witness :
    ((uniqMerge ["Ana"] ["Lu", "Ana Maria"]).map normalizeTexto).Nodup :=
  spec_C8.1 ["Ana"] ["Lu", "Ana Maria"] (by decide) (by decide)

/-- Helper: a failed store write leaves the store unchanged (the error is
only logged). -/
theorem upsert_writeFail (rf : Bool) (st : Store) (p : Pessoa) (agora : Nat)
    (trecho : String) : (upsertVinculoSt rf true st p agora trecho).1 = st := by
  cases h : encontrarMatchVinculo (if rf then [] else st.vinculos) p <;>
    simp [upsertVinculoSt, h]

/-- Helper: a failed profile-compaction path leaves the store unchanged. -/
theorem perfil_fail (resumo : Vinculo → String) (st : Store) (idOpt : Option Nat) :
    atualizarPerfilCompactoSt true resumo st idOpt = st := by
  unfold atualizarPerfilCompactoSt
  cases idOpt <;> rfl

/-- Helper: when every write and every profile compaction fails, one mention
step leaves the store untouched. -/
theorem passoMencao_allFail (resumo : Vinculo → String) (agora : Nat)
    (texto : String) (i : Nat) (st : Store) (p : Pessoa) :
    passoMencao allWritesFail resumo agora texto i st p = st := by
  unfold passoMencao
  rw [show allWritesFail.perfilFail i = true from rfl,
    show allWritesFail.writeFail i = true from rfl, perfil_fail, upsert_writeFail]

/-- Helper: the names returned by the batch loop depend only on the mentions
themselves, never on the store contents or on any failure. -/
theorem processarLoop_nomes (fp : FailurePlan) (resumo : Vinculo → String)
    (agora : Nat) (texto : String) :
    ∀ (ps : List Pessoa) (i : Nat) (st : Store),
      (processarLoop fp resumo agora texto ps i st).1 = nomesDe ps
  | [], _, _ => rfl
  | p :: ps, i, st => by
    unfold processarLoop
    rw [processarLoop_nomes fp resumo agora texto ps (i + 1) _]
    unfold nomesDe
    rw [List.flatMap_cons]
    unfold nomesDePessoa
    simp [List.filter_filter]

/-- Helper: when every write and every profile compaction fails, the whole
batch leaves the store untouched. -/
theorem processarLoop_allFail (resumo : Vinculo → String) (agora : Nat)
    (texto : String) :
    ∀ (ps : List Pessoa) (i : Nat) (st : Store),
      (processarLoop allWritesFail resumo agora texto ps i st).2 = st
  | [], _, _ => rfl
  | p :: ps, i, st => by
    unfold processarLoop
    rw [passoMencao_allFail, processarLoop_allFail resumo agora texto ps (i + 1) st]

/-- C9 counterexample: with a read failure on the only mention's store fetch
(and writes succeeding), the consolidation is not skipped — the resolver
runs against the error fallback `[]`, finds no match, and inserts a fresh
record, duplicating the existing one: the store grows from one record to
two, while the same run without failures merges in place and keeps one. -/
theorem spec_C9_cex :
    (processarVinculosUsuario true planoLeituraFalha (fun _ => [pAnaMaria])
        (fun _ => "") ("oi") stAnaMaria 5).2.vinculos.length = 2 ∧
    (processarVinculosUsuario true noFailures (fun _ => [pAnaMaria])
        (fun _ => "") ("oi") stAnaMaria 5).2.vinculos.length = 1 := by
  refine ⟨by decide, by decide⟩

/-- C9 (amended): no store failure aborts the batch or escapes the loop:
the touched-names output is computed for every mention regardless of
failures and of the store; a failed update or insert is logged and leaves
the store unchanged for that mention; a failed read does not skip the
mention — the resolver runs against the empty fallback snapshot and the
mention is inserted as a fresh record; and a batch in which every write and
profile compaction fails leaves the store exactly as it was. -/
theorem spec_C9 :
    (∀ (fp : FailurePlan) (resumo : Vinculo → String) (agora : Nat)
        (texto : String) (ps : List Pessoa) (i : Nat) (st : Store),
      (processarLoop fp resumo agora texto ps i st).1 = nomesDe ps)
    ∧ (∀ (rf : Bool) (st : Store) (p : Pessoa) (agora : Nat) (trecho : String),
        (upsertVinculoSt rf true st p agora trecho).1 = st)
    ∧ (∀ (st : Store) (p : Pessoa) (agora : Nat) (trecho : String),
        upsertVinculoSt true false st p agora trecho
          = ({ st with
                vinculos := st.vinculos ++ [novoVinculo st.nextId p agora trecho],
                nextId := st.nextId + 1 }, some st.nextId))
    ∧ (∀ (resumo : Vinculo → String) (agora : Nat) (texto : String)
        (ps : List Pessoa) (i : Nat) (st : Store),
      (processarLoop allWritesFail resumo agora texto ps i st).2 = st) := by
  refine ⟨processarLoop_nomes, upsert_writeFail, ?_, processarLoop_allFail⟩
  intro st p agora trecho
  have h : encontrarMatchVinculo ([] : List Vinculo) p = none := rfl
  simp [upsertVinculoSt, h]

/-- C10: with the memory-write flag off, the entry point returns the empty
touched-names list and the untouched store, for every extraction oracle,
summarization oracle, failure plan, message and store — so neither the
extractor nor the relativizer can influence the result and no record is
read or written. -/
theorem spec_C10 :
    ∀ (fp : FailurePlan) (extrair : String → List Pessoa)
      (resumo : Vinculo → String) (texto : String) (st : Store) (agora : Nat),
      processarVinculosUsuario false fp extrair resumo texto st agora = ([], st) :=
  fun _ _ _ _ _ _ => rfl
